import Mathlib

/-!
# Check events: node resolver and capability-gated fields

A shallow embedding of `graphql/check_event.go` (package `graphqlschema`) and
the properties of its resolvers.

Conventions of the embedding.

* A Go function returning `(interface{}, error)` becomes a function into
  `Outcome (Value × Option Error)`: either the returned pair, or the run-time
  panic that ended the call (nil pointer dereference, failed type assertion).
* A pointer field that the source tests against `nil` or dereferences
  (`Event.Check`, `Check.Config`, `Event.Entity`) is an `Option`.  An element
  of the slice the store returns is a non-nil `*types.Event` and is modelled by
  the `Event` it points to.  As an `interface{}` value a `*types.Event` is
  either `Value.event e`, pointing to `e`, or `Value.nilEvent`, the nil pointer
  of that type: it passes the type assertion and panics when a field is read.
* The collaborators outside this file (store, authorization) are carried by
  the request context as functions.
-/

set_option autoImplicit false

namespace graphqlschema

/-! ## Domain objects (package `types`) -/

/-- Modelled from the spec: the declaration of `types.Entity` lives in another
package; the spec identifies an entity by its name. -/
structure Entity where
  Name : String
  deriving DecidableEq, Repr

/-- Modelled from the spec: the declaration of `types.CheckConfig` lives in
another package; the node resolver reads its field `Name`. -/
structure CheckConfig where
  Name : String
  deriving DecidableEq, Repr

/-- Modelled from the spec: the declaration of `types.Check` lives in another
package; the resolvers read `Config` (a pointer) and the alias fields
name `Output`, `Status`, `Issued` and `Executed`. -/
structure Check where
  Config : Option CheckConfig
  Output : String
  Status : Int
  Issued : Int
  Executed : Int
  deriving DecidableEq, Repr

/-- Modelled from the spec: the declaration of `types.Event` lives in another
package; the resolvers read `Timestamp`, `Entity` and `Check`, the
last two being pointers (`IsTypeOf` tests `e.Check != nil`). -/
structure Event where
  Timestamp : Int
  Entity : Option Entity
  Check : Option Check
  deriving DecidableEq, Repr

/-! ## Go values, errors and panics -/

/-- A Go `interface{}` value as the resolvers see it: the untyped `nil`, a
pointer to one of the domain objects, or a value of some other dynamic type
(a string stands for all of them).  A `*types.Event` is `event e` when it
points to `e` and `nilEvent` when it is the nil pointer. -/
inductive Value where
  | nil
  | event (e : Event)
  | nilEvent
  | entity (p : Option Entity)
  | checkConfig (p : Option CheckConfig)
  | str (s : String)
  deriving DecidableEq, Repr

/-- A Go `error` value, identified by its message. -/
structure Error where
  msg : String
  deriving DecidableEq, Repr

/-- The run-time panics the resolvers can raise. -/
inductive Panic where
  | nilDereference
  | typeAssertion
  deriving DecidableEq, Repr

/-- The result of running a Go function: it returned `v`, or it panicked. -/
inductive Outcome (α : Type) where
  | returned (v : α)
  | panicked (p : Panic)
  deriving DecidableEq, Repr

namespace Outcome

/-- Sequencing: a panic ends the computation. -/
def bind {α β : Type} (x : Outcome α) (f : α → Outcome β) : Outcome β :=
  match x with
  | returned v => f v
  | panicked p => panicked p

end Outcome

/-- The dynamic type of the value is `*types.Event`: the type assertion
`v.(*types.Event)` succeeds. -/
def isEventPointer : Value → Bool
  | Value.event _ => true
  | Value.nilEvent => true
  | _ => false

/-- Dereference of a Go pointer: `nil` panics. -/
def deref {α : Type} : Option α → Outcome α
  | some a => Outcome.returned a
  | none => Outcome.panicked Panic.nilDereference

/-- The error built by `errors.New("source object is not an Event")`. -/
def errNotAnEvent : Error := ⟨"source object is not an Event"⟩

/-! ## Collaborators -/

/-- An ability scoped to a caller (`authorization.X.WithContext(ctx)`): its
`CanRead` decides on one resource instance. -/
structure Ability where
  CanRead : Value → Bool

/-- The answer of `store.EventStore.GetEventsByEntity` for an entity name: the
slice of events and the error. -/
abbrev EventStore := String → List Event × Option Error

/-- Modelled from the spec: `authorization` and `store` are other packages of
the repository.  The request context carries the caller, seen
through the three ability scopes the resolvers build from it
(`authorization.Entities`, `authorization.Checks`, `authorization.Events`, each
`.WithContext(ctx)`), and the value stored under `types.StoreKey` when it is an
`EventStore`. -/
structure Context where
  Entities : Ability
  Checks : Ability
  Events : Ability
  store : Option EventStore

/-- Parameters of a field resolver (`graphql.ResolveParams`). -/
structure ResolveParams where
  Source : Value
  Context : Context

/-- Modelled from the spec: `globalid.EventComponents` lives in another
package; it is the decoded identifier of a check event: the resource-type
tag and the natural key (entity name, check name, timestamp). -/
structure EventComponents where
  ResourceType : String
  EntityName : String
  CheckName : String
  Timestamp : Int
  deriving DecidableEq, Repr

/-- Modelled from the spec: the interface `globalid.Components` lives in
another package; a value of it is either an `EventComponents` or the
components of another resource kind, of which only the tag is read here. -/
inductive Components where
  | event (c : EventComponents)
  | standard (resourceType : String)
  deriving DecidableEq, Repr

/-- The method `ResourceType()` of `globalid.Components`. -/
def Components.ResourceType : Components → String
  | Components.event c => c.ResourceType
  | Components.standard t => t

/-- Parameters of a node resolver (`relay.NodeResolverParams`). -/
structure NodeResolverParams where
  Context : Context
  IDComponents : Components

/-- What a call of the node resolver did: the entity names it passed to
`GetEventsByEntity`, in call order, and how the call ended. -/
structure NodeOutcome where
  lookups : List String
  result : Outcome (Value × Option Error)
  deriving DecidableEq, Repr

/-! ## The CheckEvent type (`initCheckEventType`) -/

namespace checkEventType

/-- Field `entity`, `Resolve` (check_event.go, lines 59-70).  The type
assertion of line 61 succeeds on a nil `*types.Event` too; `event.Entity` at
line 66 then dereferences it. -/
def entity.Resolve (p : ResolveParams) : Outcome (Value × Option Error) :=
  let abilities := p.Context.Entities
  match p.Source with
  | Value.event event =>
    if abilities.CanRead (Value.entity event.Entity) then
      Outcome.returned (Value.entity event.Entity, none)
    else
      Outcome.returned (Value.nil, none)
  | Value.nilEvent => Outcome.panicked Panic.nilDereference
  | _ => Outcome.returned (Value.nil, some errNotAnEvent)

/-- Field `entity` in state-passing form: the object the source points to after
the call, and the outcome of the call.  Lines 59-70 hold no assignment, so the
source comes back as it was passed. -/
def entity.run (p : ResolveParams) : Value × Outcome (Value × Option Error) :=
  (p.Source, entity.Resolve p)

/-- Field `config`, `Resolve` (check_event.go, lines 100-111): `event.Check` is
dereferenced to read `Config`; on a nil `*types.Event` reading `event.Check` at
line 107 already panics. -/
def config.Resolve (p : ResolveParams) : Outcome (Value × Option Error) :=
  let abilities := p.Context.Checks
  match p.Source with
  | Value.event event =>
    (deref event.Check).bind fun check =>
      if abilities.CanRead (Value.checkConfig check.Config) then
        Outcome.returned (Value.checkConfig check.Config, none)
      else
        Outcome.returned (Value.nil, none)
  | Value.nilEvent => Outcome.panicked Panic.nilDereference
  | _ => Outcome.returned (Value.nil, some errNotAnEvent)

/-- The predicate `IsTypeOf` (check_event.go, lines 115-120): on a nil
`*types.Event` the assertion of line 116 succeeds and `e.Check` at line 117
panics. -/
def IsTypeOf (v : Value) : Outcome Bool :=
  match v with
  | Value.event e => Outcome.returned e.Check.isSome
  | Value.nilEvent => Outcome.panicked Panic.nilDereference
  | _ => Outcome.returned false

end checkEventType

/-! ## The node resolver (`newCheckEventNodeResolver`) -/

namespace newCheckEventNodeResolver

/-- The condition of the loop body (lines 149-151), evaluated left to right
with the short circuit of `&&`: the check and its config are dereferenced only
when the timestamps are equal. -/
def loopCondition (abilities : Ability) (components : EventComponents)
    (event : Event) : Outcome Bool :=
  if event.Timestamp = components.Timestamp then
    (deref event.Check).bind fun check =>
    (deref check.Config).bind fun config =>
      if config.Name = components.CheckName then
        Outcome.returned (abilities.CanRead (Value.event event))
      else
        Outcome.returned false
  else
    Outcome.returned false

/-- The loop `for _, event := range events` with the `return nil, nil` that
follows it (lines 148-156). -/
def loop (abilities : Ability) (components : EventComponents) :
    List Event → Outcome (Value × Option Error)
  | [] => Outcome.returned (Value.nil, none)
  | event :: rest =>
    (loopCondition abilities components event).bind fun hit =>
      if hit then Outcome.returned (Value.event event, none)
      else loop abilities components rest

/-- The function `Resolve` of the node resolver (lines 139-157). -/
def Resolve (p : NodeResolverParams) : NodeOutcome :=
  match p.IDComponents with
  | Components.standard _ => ⟨[], Outcome.panicked Panic.typeAssertion⟩
  | Components.event components =>
    match p.Context.store with
    | none => ⟨[], Outcome.panicked Panic.typeAssertion⟩
    | some store =>
      match store components.EntityName with
      | (_, some err) =>
        ⟨[components.EntityName], Outcome.returned (Value.nil, some err)⟩
      | (events, none) =>
        let abilities := p.Context.Events
        ⟨[components.EntityName], loop abilities components events⟩

/-- The function `IsKindOf` of the node resolver (lines 158-160). -/
def IsKindOf (components : Components) : Bool :=
  components.ResourceType = "check"

end newCheckEventNodeResolver

/-! ## Identifiers -/

/-- Modelled from the spec: `globalid.EventTranslator.Encode`, called by the
field `id`, lives in another package.  The components of a check event are
the name of its owning entity, the name of its check and its timestamp, under
the tag `check`; an event lacking the entity or the check config has none. -/
def EventTranslator.Encode (e : Event) : Option EventComponents :=
  match e.Entity, e.Check with
  | some entity, some check =>
    match check.Config with
    | some config => some ⟨"check", entity.Name, config.Name, e.Timestamp⟩
    | none => none
  | _, _ => none

/-! ## Specification-side notions -/

/-- The name of the check config of an event, when it has one. -/
def checkConfigName (e : Event) : Option String :=
  (e.Check.bind fun check => check.Config).map fun config => config.Name

/-- The event carries a check with a config. -/
def hasCheckConfig (e : Event) : Bool :=
  match e.Check with
  | some check => check.Config.isSome
  | none => false

/-- The event matches the components on timestamp and check name. -/
def matchesKey (c : EventComponents) (e : Event) : Bool :=
  decide (e.Timestamp = c.Timestamp) && decide (checkConfigName e = some c.CheckName)

/-- The event is the one the components name and the caller may read it. -/
def visibleMatch (ctx : Context) (c : EventComponents) (e : Event) : Bool :=
  matchesKey c e && ctx.Events.CanRead (Value.event e)

/-- The pair the node resolver returns for the outcome of its search. -/
def foundOrNil : Option Event → Value × Option Error
  | some e => (Value.event e, none)
  | none => (Value.nil, none)

/-! ## Example data -/

/-- A check result of the check `check-cpu`. -/
def exCheck : Check := ⟨some ⟨"check-cpu"⟩, "ok", 0, 990, 995⟩

/-- The event of `check-cpu` on `web-1` at time 1000. -/
def exEvent : Event := ⟨1000, some ⟨"web-1"⟩, some exCheck⟩

/-- An older event of the same check. -/
def exOlder : Event := ⟨900, some ⟨"web-1"⟩, some exCheck⟩

/-- A metric-only event at time 1000: it carries no check. -/
def exMetric : Event := ⟨1000, some ⟨"web-1"⟩, none⟩

/-- The components naming `exEvent`. -/
def exComponents : EventComponents := ⟨"check", "web-1", "check-cpu", 1000⟩

/-- A caller allowed to read everything, with a store holding two events. -/
def exContext : Context :=
  ⟨⟨fun _ => true⟩, ⟨fun _ => true⟩, ⟨fun _ => true⟩, some fun _ => ([exOlder, exEvent], none)⟩

/-- A caller allowed to read nothing, with the same store. -/
def exDenied : Context :=
  ⟨⟨fun _ => false⟩, ⟨fun _ => false⟩, ⟨fun _ => false⟩,
    some fun _ => ([exOlder, exEvent], none)⟩

/-- A caller with check-read but without entity-read. -/
def exChecksOnly : Context :=
  ⟨⟨fun _ => false⟩, ⟨fun _ => true⟩, ⟨fun _ => true⟩, none⟩

/-- A context whose store fails. -/
def exFailing : Context :=
  ⟨⟨fun _ => true⟩, ⟨fun _ => true⟩, ⟨fun _ => true⟩, some fun _ => ([], some ⟨"etcd: timeout"⟩)⟩

/-- A caller allowed to read everything; the store returns a metric-only event
ahead of `exEvent`, both at time 1000. -/
def exMixed : Context :=
  ⟨⟨fun _ => true⟩, ⟨fun _ => true⟩, ⟨fun _ => true⟩, some fun _ => ([exMetric, exEvent], none)⟩

/-- A caller allowed to read everything; the store returns one metric-only
event. -/
def exMetricOnly : Context :=
  ⟨⟨fun _ => true⟩, ⟨fun _ => true⟩, ⟨fun _ => true⟩, some fun _ => ([exMetric], none)⟩

/-- No two events of the list share both check config name and timestamp. -/
def distinctKeys (L : List Event) : Prop :=
  L.Pairwise fun a b => ¬ (checkConfigName a = checkConfigName b ∧ a.Timestamp = b.Timestamp)

instance (L : List Event) : Decidable (distinctKeys L) := by
  unfold distinctKeys
  infer_instance

/-! ## Lemmas on the loop -/

open newCheckEventNodeResolver

theorem hasCheckConfig_iff (e : Event) :
    hasCheckConfig e = true
      ↔ ∃ check config, e.Check = some check ∧ check.Config = some config := by
  unfold hasCheckConfig
  cases hk : e.Check with
  | none => simp
  | some check =>
    cases hg : check.Config with
    | none => simp [hg]
    | some config => simp [hg]

theorem loopCondition_of_hasCheckConfig (abilities : Ability) (c : EventComponents)
    (e : Event) (h : hasCheckConfig e = true) :
    loopCondition abilities c e
      = Outcome.returned (matchesKey c e && abilities.CanRead (Value.event e)) := by
  obtain ⟨check, config, hc, hcfg⟩ := (hasCheckConfig_iff e).mp h
  unfold loopCondition matchesKey checkConfigName
  by_cases ht : e.Timestamp = c.Timestamp
  · by_cases hn : config.Name = c.CheckName
    · simp [ht, hc, hcfg, hn, deref, Outcome.bind]
    · simp [ht, hc, hcfg, hn, deref, Outcome.bind]
  · simp [ht]

theorem loop_eq_find (abilities : Ability) (c : EventComponents) (L : List Event)
    (h : ∀ e ∈ L, hasCheckConfig e = true) :
    loop abilities c L = Outcome.returned
      (foundOrNil (L.find? fun e => matchesKey c e && abilities.CanRead (Value.event e))) := by
  induction L with
  | nil => rfl
  | cons e rest ih =>
    have he : hasCheckConfig e = true := h e (List.mem_cons_self e rest)
    have hrest : ∀ x ∈ rest, hasCheckConfig x = true := fun x hx => h x (List.mem_cons_of_mem e hx)
    rw [loop, loopCondition_of_hasCheckConfig abilities c e he, Outcome.bind]
    by_cases hit : (matchesKey c e && abilities.CanRead (Value.event e)) = true
    · simp [hit, List.find?, foundOrNil]
    · simp only [hit, List.find?]
      simpa using ih hrest

theorem Resolve_of_store_ok (ctx : Context) (c : EventComponents) (st : EventStore)
    (L : List Event) (hstore : ctx.store = some st) (hL : st c.EntityName = (L, none)) :
    Resolve ⟨ctx, Components.event c⟩ = ⟨[c.EntityName], loop ctx.Events c L⟩ := by
  simp [Resolve, hstore, hL]

theorem exCheck_hasCheckConfig : ∀ e ∈ [exOlder, exEvent], hasCheckConfig e = true := by
  decide

/-! ## The node resolver -/

/-- C1: when the store returns the list `L` for the entity name of the
components and every event of `L` carries a check with a config, the node
resolver returns, with no error, the first event of `L` in store order that
matches the components on timestamp and check name and that the caller may
read; it returns nil with no error exactly when `L` has no such event; any
value it returns is nil or an element of `L`. -/
theorem C1_node_resolver_result (ctx : Context) (c : EventComponents) (st : EventStore)
    (L : List Event) (hstore : ctx.store = some st) (hL : st c.EntityName = (L, none))
    (hcfg : ∀ e ∈ L, hasCheckConfig e = true) :
    (∀ pre e post, L = pre ++ e :: post → (∀ x ∈ pre, visibleMatch ctx c x = false) →
        visibleMatch ctx c e = true →
        (Resolve ⟨ctx, Components.event c⟩).result = Outcome.returned (Value.event e, none))
    ∧ ((Resolve ⟨ctx, Components.event c⟩).result = Outcome.returned (Value.nil, none)
        ↔ ∀ x ∈ L, visibleMatch ctx c x = false)
    ∧ (∃ v, (Resolve ⟨ctx, Components.event c⟩).result = Outcome.returned (v, none)
        ∧ (v = Value.nil ∨ ∃ e ∈ L, v = Value.event e))
    ∧ (Resolve ⟨ctx, Components.event c⟩).result
        = Outcome.returned (foundOrNil (L.find? (visibleMatch ctx c))) := by
  have hres : (Resolve ⟨ctx, Components.event c⟩).result
      = Outcome.returned (foundOrNil (L.find? (visibleMatch ctx c))) := by
    rw [Resolve_of_store_ok ctx c st L hstore hL, loop_eq_find ctx.Events c L hcfg]
    rfl
  refine ⟨?_, ?_, ?_, hres⟩
  · intro pre e post hsplit hpre he
    rw [hres, hsplit, List.find?_append]
    have hnone : List.find? (visibleMatch ctx c) pre = none := by
      rw [List.find?_eq_none]
      intro x hx
      simp [hpre x hx]
    simp [hnone, List.find?, he, foundOrNil]
  · rw [hres]
    constructor
    · intro h x hx
      cases hf : L.find? (visibleMatch ctx c) with
      | none =>
        rw [List.find?_eq_none] at hf
        simpa using hf x hx
      | some e => simp [hf, foundOrNil] at h
    · intro h
      have hnone : L.find? (visibleMatch ctx c) = none := by
        rw [List.find?_eq_none]
        intro x hx
        simp [h x hx]
      simp [hnone, foundOrNil]
  · rw [hres]
    cases hf : L.find? (visibleMatch ctx c) with
    | none => exact ⟨Value.nil, rfl, Or.inl rfl⟩
    | some e => exact ⟨Value.event e, rfl, Or.inr ⟨e, List.mem_of_find?_eq_some hf, rfl⟩⟩

/-- Witness of C1: the caller who may read everything gets `exEvent`, the second
event of the list held by the store. -/
theorem C1_node_resolver_result_witness :
    (Resolve ⟨exContext, Components.event exComponents⟩).result
      = Outcome.returned (Value.event exEvent, none) :=
  (C1_node_resolver_result exContext exComponents (fun _ => ([exOlder, exEvent], none))
    [exOlder, exEvent] rfl rfl exCheck_hasCheckConfig).1 [exOlder] exEvent [] rfl
    (by decide) (by decide)

/-- C2: when the caller may read none of the events of `L` that match the
components on timestamp and check name, the node resolver returns nil and no
error, and so does it when the store holds `L` without those events: the two
calls are indistinguishable. -/
theorem C2_authorization_opacity (ctx : Context) (c : EventComponents)
    (st st2 : EventStore) (L : List Event)
    (hstore : ctx.store = some st) (hL : st c.EntityName = (L, none))
    (hL2 : st2 c.EntityName = (L.filter fun e => !matchesKey c e, none))
    (hcfg : ∀ e ∈ L, hasCheckConfig e = true)
    (hdenied : ∀ e ∈ L, matchesKey c e = true → ctx.Events.CanRead (Value.event e) = false) :
    Resolve ⟨ctx, Components.event c⟩
        = ⟨[c.EntityName], Outcome.returned (Value.nil, none)⟩
    ∧ Resolve ⟨⟨ctx.Entities, ctx.Checks, ctx.Events, some st2⟩, Components.event c⟩
        = Resolve ⟨ctx, Components.event c⟩ := by
  have hcfg2 : ∀ e ∈ L.filter (fun e => !matchesKey c e), hasCheckConfig e = true :=
    fun e he => hcfg e (List.mem_filter.mp he).1
  have h1 : L.find? (fun e => matchesKey c e && ctx.Events.CanRead (Value.event e)) = none := by
    rw [List.find?_eq_none]
    intro x hx
    cases hm : matchesKey c x with
    | false => simp
    | true => simp [hdenied x hx hm]
  have h2 : (L.filter fun e => !matchesKey c e).find?
      (fun e => matchesKey c e && ctx.Events.CanRead (Value.event e)) = none := by
    rw [List.find?_eq_none]
    intro x hx
    have hm := (List.mem_filter.mp hx).2
    cases hk : matchesKey c x with
    | false => simp
    | true => simp [hk] at hm
  have hfirst : Resolve ⟨ctx, Components.event c⟩
      = ⟨[c.EntityName], Outcome.returned (Value.nil, none)⟩ := by
    rw [Resolve_of_store_ok ctx c st L hstore hL, loop_eq_find ctx.Events c L hcfg, h1]
    rfl
  refine ⟨hfirst, ?_⟩
  rw [hfirst, Resolve_of_store_ok ⟨ctx.Entities, ctx.Checks, ctx.Events, some st2⟩ c st2 _ rfl hL2,
    loop_eq_find ctx.Events c _ hcfg2, h2]
  rfl

/-- Witness of C2: the caller who may read nothing gets nil for `exEvent`, as if
the store held only the older event. -/
theorem C2_authorization_opacity_witness :
    Resolve ⟨exDenied, Components.event exComponents⟩
        = ⟨["web-1"], Outcome.returned (Value.nil, none)⟩
    ∧ Resolve ⟨⟨exDenied.Entities, exDenied.Checks, exDenied.Events,
          some fun _ => ([exOlder], none)⟩, Components.event exComponents⟩
        = Resolve ⟨exDenied, Components.event exComponents⟩ :=
  C2_authorization_opacity exDenied exComponents (fun _ => ([exOlder, exEvent], none))
    (fun _ => ([exOlder], none)) [exOlder, exEvent] rfl rfl (by decide)
    exCheck_hasCheckConfig (fun _ _ _ => rfl)

/-- C3: with a store in the context, the node resolver returns an error exactly
when `GetEventsByEntity` returns one; it then returns nil together with that
very error; it calls the store once, with the entity name of the components;
when the store returns no error the resolver returns none either. -/
theorem C3_store_error_propagation (ctx : Context) (c : EventComponents) (st : EventStore)
    (hstore : ctx.store = some st) :
    ((∃ v err, (Resolve ⟨ctx, Components.event c⟩).result = Outcome.returned (v, some err))
        ↔ ∃ err, (st c.EntityName).2 = some err)
    ∧ (∀ err, (st c.EntityName).2 = some err →
        (Resolve ⟨ctx, Components.event c⟩).result = Outcome.returned (Value.nil, some err))
    ∧ (Resolve ⟨ctx, Components.event c⟩).lookups = [c.EntityName]
    ∧ ((st c.EntityName).2 = none →
        (Resolve ⟨ctx, Components.event c⟩).result = loop ctx.Events c (st c.EntityName).1) := by
  have hloop : ∀ (L : List Event) v err,
      loop ctx.Events c L = Outcome.returned (v, err) → err = none := by
    intro L
    induction L with
    | nil =>
      intro v err h
      simp only [loop, Outcome.returned.injEq, Prod.mk.injEq] at h
      exact h.2.symm
    | cons e rest ih =>
      intro v err h
      rw [loop] at h
      cases hc : loopCondition ctx.Events c e with
      | panicked p => simp [hc, Outcome.bind] at h
      | returned hit =>
        cases hit with
        | true =>
          simp only [hc, Outcome.bind, if_true, Outcome.returned.injEq, Prod.mk.injEq] at h
          exact h.2.symm
        | false =>
          simp only [hc, Outcome.bind] at h
          exact ih v err h
  cases hst : st c.EntityName with
  | mk events oerr =>
    cases oerr with
    | some e =>
      have hr : Resolve ⟨ctx, Components.event c⟩
          = ⟨[c.EntityName], Outcome.returned (Value.nil, some e)⟩ := by
        simp [Resolve, hstore, hst]
      refine ⟨⟨fun _ => ⟨e, rfl⟩, fun _ => ⟨Value.nil, e, by rw [hr]⟩⟩, ?_, by rw [hr], ?_⟩
      · intro err herr
        simp only [Option.some.injEq] at herr
        rw [hr, herr]
      · intro h
        simp at h
    | none =>
      have hr : Resolve ⟨ctx, Components.event c⟩ = ⟨[c.EntityName], loop ctx.Events c events⟩ :=
        Resolve_of_store_ok ctx c st events hstore hst
      refine ⟨⟨?_, ?_⟩, ?_, by rw [hr], fun _ => by rw [hr]⟩
      · rintro ⟨v, err, h⟩
        rw [hr] at h
        have := hloop events v (some err) h
        simp at this
      · rintro ⟨err, h⟩
        simp at h
      · intro err h
        simp at h

/-- Witness of C3: the error of a failing store comes back unchanged. -/
theorem C3_store_error_propagation_witness :
    (Resolve ⟨exFailing, Components.event exComponents⟩).result
      = Outcome.returned (Value.nil, some ⟨"etcd: timeout"⟩) :=
  (C3_store_error_propagation exFailing exComponents (fun _ => ([], some ⟨"etcd: timeout"⟩))
    rfl).2.1 ⟨"etcd: timeout"⟩ rfl

/-! ## The relationship fields -/

/-- C4: the `entity` resolver returns an error exactly when the dynamic type of
its source is not `*types.Event`, and that error is "source object is not an
Event" with a nil value; on a source pointing to an Event it returns the entity
of the event with no error when the entity-read ability accepts that entity and
nil with no error when it rejects it; on a nil `*types.Event` it panics with a
nil pointer dereference; the source comes back from the call as it was
passed. -/
theorem C4_entity_field (p : ResolveParams) :
    ((∃ v err, checkEventType.entity.Resolve p = Outcome.returned (v, some err))
        ↔ isEventPointer p.Source = false)
    ∧ (isEventPointer p.Source = false →
        checkEventType.entity.Resolve p = Outcome.returned (Value.nil, some errNotAnEvent))
    ∧ (∀ e, p.Source = Value.event e →
        p.Context.Entities.CanRead (Value.entity e.Entity) = true →
        checkEventType.entity.Resolve p = Outcome.returned (Value.entity e.Entity, none))
    ∧ (∀ e, p.Source = Value.event e →
        p.Context.Entities.CanRead (Value.entity e.Entity) = false →
        checkEventType.entity.Resolve p = Outcome.returned (Value.nil, none))
    ∧ (p.Source = Value.nilEvent →
        checkEventType.entity.Resolve p = Outcome.panicked Panic.nilDereference)
    ∧ (checkEventType.entity.run p).1 = p.Source
    ∧ (checkEventType.entity.run p).2 = checkEventType.entity.Resolve p := by
  obtain ⟨src, ctx⟩ := p
  cases src with
  | event ev =>
    refine ⟨⟨?_, fun h => by simp [isEventPointer] at h⟩,
      fun h => by simp [isEventPointer] at h, ?_, ?_, fun h => by simp at h, rfl, rfl⟩
    · rintro ⟨v, err, h⟩
      cases hc : ctx.Entities.CanRead (Value.entity ev.Entity) <;>
        simp [checkEventType.entity.Resolve, hc] at h
    · intro e he hc
      simp only [Value.event.injEq] at he
      subst he
      dsimp only at hc
      simp [checkEventType.entity.Resolve, hc]
    · intro e he hc
      simp only [Value.event.injEq] at he
      subst he
      dsimp only at hc
      simp [checkEventType.entity.Resolve, hc]
  | nilEvent =>
    refine ⟨⟨?_, fun h => by simp [isEventPointer] at h⟩,
      fun h => by simp [isEventPointer] at h, fun e he => by simp at he,
      fun e he => by simp at he, fun _ => rfl, rfl, rfl⟩
    rintro ⟨v, err, h⟩
    simp [checkEventType.entity.Resolve] at h
  | nil | entity _ | checkConfig _ | str _ =>
    refine ⟨⟨fun _ => rfl, fun _ => ⟨Value.nil, errNotAnEvent, rfl⟩⟩,
      fun _ => rfl, fun e he => by simp at he, fun e he => by simp at he,
      fun h => by simp at h, rfl, rfl⟩

/-- Counterexample to C4 read over every source value: a nil `*types.Event` is
a source on which the `entity` resolver neither returns the error "source object
is not an Event" nor returns at all; it panics. -/
theorem C4_nil_event_pointer_counterexample :
    checkEventType.entity.Resolve ⟨Value.nilEvent, exContext⟩
        = Outcome.panicked Panic.nilDereference
    ∧ (∀ e, Value.nilEvent ≠ Value.event e)
    ∧ checkEventType.entity.Resolve ⟨Value.nilEvent, exContext⟩
        ≠ Outcome.returned (Value.nil, some errNotAnEvent)
    ∧ (∀ r, checkEventType.entity.Resolve ⟨Value.nilEvent, exContext⟩
        ≠ Outcome.returned r) := by
  refine ⟨rfl, fun e h => (by cases h), fun h => (by cases h), fun r h => (by cases h)⟩

/-- C5: the `config` resolver returns an error exactly when the dynamic type of
its source is not `*types.Event`, and that error is "source object is not an
Event"; on an Event carrying a check it returns the config of that check with
no error when the check-read ability accepts the config and nil with no error
when it rejects it, whatever the entity and event abilities of the caller
decide; on a nil `*types.Event` it panics. -/
theorem C5_config_field (p : ResolveParams) :
    ((∃ v err, checkEventType.config.Resolve p = Outcome.returned (v, some err))
        ↔ isEventPointer p.Source = false)
    ∧ (isEventPointer p.Source = false →
        checkEventType.config.Resolve p = Outcome.returned (Value.nil, some errNotAnEvent))
    ∧ (∀ e check, p.Source = Value.event e → e.Check = some check →
        p.Context.Checks.CanRead (Value.checkConfig check.Config) = true →
        checkEventType.config.Resolve p
          = Outcome.returned (Value.checkConfig check.Config, none))
    ∧ (∀ e check, p.Source = Value.event e → e.Check = some check →
        p.Context.Checks.CanRead (Value.checkConfig check.Config) = false →
        checkEventType.config.Resolve p = Outcome.returned (Value.nil, none))
    ∧ (∀ entities events store, checkEventType.config.Resolve
          ⟨p.Source, ⟨entities, p.Context.Checks, events, store⟩⟩
        = checkEventType.config.Resolve p)
    ∧ (p.Source = Value.nilEvent →
        checkEventType.config.Resolve p = Outcome.panicked Panic.nilDereference) := by
  obtain ⟨src, ctx⟩ := p
  cases src with
  | event ev =>
    refine ⟨⟨?_, fun h => by simp [isEventPointer] at h⟩,
      fun h => by simp [isEventPointer] at h, ?_, ?_, fun _ _ _ => rfl,
      fun h => by simp at h⟩
    · rintro ⟨v, err, h⟩
      cases hk : ev.Check with
      | none => simp [checkEventType.config.Resolve, hk, deref, Outcome.bind] at h
      | some check =>
        cases hc : ctx.Checks.CanRead (Value.checkConfig check.Config) <;>
          simp [checkEventType.config.Resolve, hk, deref, Outcome.bind, hc] at h
    · intro e check he hk hc
      simp only [Value.event.injEq] at he
      subst he
      dsimp only at hc
      simp [checkEventType.config.Resolve, hk, deref, Outcome.bind, hc]
    · intro e check he hk hc
      simp only [Value.event.injEq] at he
      subst he
      dsimp only at hc
      simp [checkEventType.config.Resolve, hk, deref, Outcome.bind, hc]
  | nilEvent =>
    refine ⟨⟨?_, fun h => by simp [isEventPointer] at h⟩,
      fun h => by simp [isEventPointer] at h, fun e _ he => by simp at he,
      fun e _ he => by simp at he, fun _ _ _ => rfl, fun _ => rfl⟩
    rintro ⟨v, err, h⟩
    simp [checkEventType.config.Resolve] at h
  | nil | entity _ | checkConfig _ | str _ =>
    refine ⟨⟨fun _ => rfl, fun _ => ⟨Value.nil, errNotAnEvent, rfl⟩⟩,
      fun _ => rfl, fun e _ he => by simp at he, fun e _ he => by simp at he,
      fun _ _ _ => rfl, fun h => by simp at h⟩

/-- C6: on a check event the outcome of the `entity` field is the same for two
callers whose entity-read abilities agree on the entity of the event, and the
outcome of the `config` field is the same for two callers whose check-read
abilities agree on the config of its check; a caller with check-read but
without entity-read gets nil for the entity and the config for the config, both
with no error. -/
theorem C6_field_independence (e : Event) (check : Check) (hk : e.Check = some check) :
    (∀ ctx ctx2 : Context,
        ctx.Entities.CanRead (Value.entity e.Entity)
          = ctx2.Entities.CanRead (Value.entity e.Entity) →
        checkEventType.entity.Resolve ⟨Value.event e, ctx⟩
          = checkEventType.entity.Resolve ⟨Value.event e, ctx2⟩)
    ∧ (∀ ctx ctx2 : Context,
        ctx.Checks.CanRead (Value.checkConfig check.Config)
          = ctx2.Checks.CanRead (Value.checkConfig check.Config) →
        checkEventType.config.Resolve ⟨Value.event e, ctx⟩
          = checkEventType.config.Resolve ⟨Value.event e, ctx2⟩)
    ∧ (∀ ctx : Context,
        ctx.Checks.CanRead (Value.checkConfig check.Config) = true →
        ctx.Entities.CanRead (Value.entity e.Entity) = false →
        checkEventType.entity.Resolve ⟨Value.event e, ctx⟩
            = Outcome.returned (Value.nil, none)
          ∧ checkEventType.config.Resolve ⟨Value.event e, ctx⟩
            = Outcome.returned (Value.checkConfig check.Config, none)) := by
  refine ⟨?_, ?_, ?_⟩
  · intro ctx ctx2 h
    simp [checkEventType.entity.Resolve, h]
  · intro ctx ctx2 h
    simp [checkEventType.config.Resolve, hk, deref, Outcome.bind, h]
  · intro ctx hc hent
    simp [checkEventType.entity.Resolve, checkEventType.config.Resolve, hk, deref,
      Outcome.bind, hc, hent]

/-- Witness of C6: Scenario E on `exEvent`. -/
theorem C6_field_independence_witness :
    checkEventType.entity.Resolve ⟨Value.event exEvent, exChecksOnly⟩
        = Outcome.returned (Value.nil, none)
      ∧ checkEventType.config.Resolve ⟨Value.event exEvent, exChecksOnly⟩
        = Outcome.returned (Value.checkConfig (some ⟨"check-cpu"⟩), none) :=
  (C6_field_independence exEvent exCheck rfl).2.2 exChecksOnly rfl rfl

/-- C7: `IsKindOf` accepts components exactly when their resource-type tag is
the string "check"; the tags "Check", "checks", "chec", "" and "widget" are
rejected. -/
theorem C7_IsKindOf_exact :
    (∀ components : Components,
        IsKindOf components = true ↔ components.ResourceType = "check")
    ∧ IsKindOf (Components.standard "check") = true
    ∧ IsKindOf (Components.event exComponents) = true
    ∧ IsKindOf (Components.standard "Check") = false
    ∧ IsKindOf (Components.standard "checks") = false
    ∧ IsKindOf (Components.standard "chec") = false
    ∧ IsKindOf (Components.standard "") = false
    ∧ IsKindOf (Components.standard "widget") = false
    ∧ IsKindOf (Components.event ⟨"Check", "web-1", "check-cpu", 1000⟩) = false := by
  refine ⟨fun components => by simp [IsKindOf], ?_, ?_, ?_, ?_, ?_, ?_, ?_, ?_⟩ <;> decide

/-- C8: `IsTypeOf` accepts a value exactly when it is an Event whose check is
present; on every value it accepts, the `entity` and the `config` resolver both
return with no error, so neither yields "source object is not an Event" and the
config resolver does not dereference a missing check. -/
theorem C8_source_type_error_unreachable (v : Value) :
    (checkEventType.IsTypeOf v = Outcome.returned true
        ↔ ∃ e check, v = Value.event e ∧ e.Check = some check)
    ∧ (checkEventType.IsTypeOf v = Outcome.returned true → ∀ ctx : Context,
        (∃ r, checkEventType.entity.Resolve ⟨v, ctx⟩ = Outcome.returned (r, none))
        ∧ (∃ r, checkEventType.config.Resolve ⟨v, ctx⟩ = Outcome.returned (r, none))) := by
  cases v with
  | event e =>
    cases hk : e.Check with
    | none => simp [checkEventType.IsTypeOf, hk]
    | some check =>
      refine ⟨by simp [checkEventType.IsTypeOf, hk], fun _ ctx => ⟨?_, ?_⟩⟩
      · cases hc : ctx.Entities.CanRead (Value.entity e.Entity) <;>
          simp [checkEventType.entity.Resolve, hc]
      · cases hc : ctx.Checks.CanRead (Value.checkConfig check.Config) <;>
          simp [checkEventType.config.Resolve, hk, deref, Outcome.bind, hc]
  | nilEvent | nil | entity _ | checkConfig _ | str _ => simp [checkEventType.IsTypeOf]

/-- Witness of C4 on `exEvent`: the caller without entity-read gets nil and no
error, a string source gets the error. -/
theorem C4_entity_field_witness :
    checkEventType.entity.Resolve ⟨Value.event exEvent, exChecksOnly⟩
        = Outcome.returned (Value.nil, none)
      ∧ checkEventType.entity.Resolve ⟨Value.str "web-1", exChecksOnly⟩
        = Outcome.returned (Value.nil, some errNotAnEvent) :=
  ⟨(C4_entity_field ⟨Value.event exEvent, exChecksOnly⟩).2.2.2.1 exEvent rfl rfl,
    (C4_entity_field ⟨Value.str "web-1", exChecksOnly⟩).2.1 rfl⟩

/-- Witness of C5 on `exEvent`: the caller with check-read gets the config. -/
theorem C5_config_field_witness :
    checkEventType.config.Resolve ⟨Value.event exEvent, exChecksOnly⟩
      = Outcome.returned (Value.checkConfig (some ⟨"check-cpu"⟩), none) :=
  (C5_config_field ⟨Value.event exEvent, exChecksOnly⟩).2.2.1 exEvent exCheck rfl rfl rfl

/-- Witness of C8 on `exEvent`, which `IsTypeOf` accepts. -/
theorem C8_source_type_error_unreachable_witness :
    checkEventType.IsTypeOf (Value.event exEvent) = Outcome.returned true
      ∧ (∃ r, checkEventType.entity.Resolve ⟨Value.event exEvent, exDenied⟩
          = Outcome.returned (r, none))
      ∧ (∃ r, checkEventType.config.Resolve ⟨Value.event exEvent, exDenied⟩
          = Outcome.returned (r, none)) :=
  ⟨rfl, (C8_source_type_error_unreachable (Value.event exEvent)).2 rfl exDenied⟩

/-! ## Re-fetch by identity and totality of the scan -/

theorem eq_of_distinctKeys (L : List Event) (h : distinctKeys L) (a b : Event)
    (ha : a ∈ L) (hb : b ∈ L)
    (hkey : checkConfigName a = checkConfigName b ∧ a.Timestamp = b.Timestamp) : a = b := by
  unfold distinctKeys at h
  induction L with
  | nil => cases ha
  | cons x xs ih =>
    rw [List.pairwise_cons] at h
    rcases List.mem_cons.mp ha with rfl | ha2
    · rcases List.mem_cons.mp hb with rfl | hb2
      · rfl
      · exact absurd hkey (h.1 b hb2)
    · rcases List.mem_cons.mp hb with rfl | hb2
      · exact absurd ⟨hkey.1.symm, hkey.2.symm⟩ (h.1 a ha2)
      · exact ih h.2 ha2 hb2

/-- Re-fetch by identity on lists in which every event carries a check with a
config: the node resolver invoked with the components of a readable event `e` of
`L` returns `e`, provided no two events of `L` share check config name and
timestamp. -/
theorem refetch_of_hasCheckConfig (ctx : Context) (st : EventStore) (L : List Event)
    (e : Event) (c : EventComponents) (hstore : ctx.store = some st)
    (hc : EventTranslator.Encode e = some c) (hL : st c.EntityName = (L, none))
    (hcfg : ∀ x ∈ L, hasCheckConfig x = true) (hdist : distinctKeys L) (he : e ∈ L)
    (hread : ctx.Events.CanRead (Value.event e) = true) :
    Resolve ⟨ctx, Components.event c⟩
      = ⟨[c.EntityName], Outcome.returned (Value.event e, none)⟩ := by
  have hkey : e.Timestamp = c.Timestamp ∧ checkConfigName e = some c.CheckName := by
    unfold EventTranslator.Encode at hc
    cases hent : e.Entity with
    | none => simp [hent] at hc
    | some entity =>
      cases hk : e.Check with
      | none => simp [hent, hk] at hc
      | some check =>
        cases hg : check.Config with
        | none => simp [hent, hk, hg] at hc
        | some config =>
          simp only [hent, hk, hg, Option.some.injEq] at hc
          subst hc
          simp [checkConfigName, hk, hg]
  have hvis : (matchesKey c e && ctx.Events.CanRead (Value.event e)) = true := by
    simp [matchesKey, hkey.1, hkey.2, hread]
  rw [Resolve_of_store_ok ctx c st L hstore hL, loop_eq_find ctx.Events c L hcfg]
  cases hf : L.find? (fun x => matchesKey c x && ctx.Events.CanRead (Value.event x)) with
  | none =>
    rw [List.find?_eq_none] at hf
    exact absurd hvis (hf e he)
  | some x =>
    have hx := List.find?_some hf
    have hxk : x.Timestamp = c.Timestamp ∧ checkConfigName x = some c.CheckName := by
      simp only [Bool.and_eq_true, matchesKey, decide_eq_true_eq] at hx
      exact hx.1
    have hxe : x = e :=
      eq_of_distinctKeys L hdist x e (List.mem_of_find?_eq_some hf) he
        ⟨hxk.2.trans hkey.2.symm, hxk.1.trans hkey.1.symm⟩
    rw [hxe]
    rfl

/-- C9: the store returns a metric-only event and then `exEvent`, both at time
1000; no two events of that list share check config name and timestamp, the
caller may read `exEvent`, and the node resolver invoked with the components of
`exEvent` panics on the metric-only event instead of returning `exEvent`. -/
theorem C9_refetch_panics_behind_metric_event :
    EventTranslator.Encode exEvent = some exComponents
    ∧ exMixed.store.map (fun st => st exComponents.EntityName)
        = some ([exMetric, exEvent], none)
    ∧ distinctKeys [exMetric, exEvent]
    ∧ exEvent ∈ [exMetric, exEvent]
    ∧ exMixed.Events.CanRead (Value.event exEvent) = true
    ∧ Resolve ⟨exMixed, Components.event exComponents⟩
        = ⟨["web-1"], Outcome.panicked Panic.nilDereference⟩
    ∧ Resolve ⟨exMixed, Components.event exComponents⟩
        ≠ ⟨["web-1"], Outcome.returned (Value.event exEvent, none)⟩ := by
  refine ⟨rfl, rfl, by decide, by decide, rfl, by decide, by decide⟩

/-- C10: on a store list holding one metric-only event whose timestamp equals
that of the components, the node resolver panics with a nil pointer dereference
while reading the check config name: it yields neither an event, nor nil, nor an
error. -/
theorem C10_scan_panics_on_metric_event :
    Resolve ⟨exMetricOnly, Components.event exComponents⟩
        = ⟨["web-1"], Outcome.panicked Panic.nilDereference⟩
    ∧ (∀ r, (Resolve ⟨exMetricOnly, Components.event exComponents⟩).result
        ≠ Outcome.returned r)
    ∧ checkEventType.IsTypeOf (Value.event exMetric) = Outcome.returned false := by
  refine ⟨by decide, ?_, rfl⟩
  intro r h
  have hp : (Resolve ⟨exMetricOnly, Components.event exComponents⟩).result
      = Outcome.panicked Panic.nilDereference := by decide
  rw [hp] at h
  cases h

end graphqlschema
